import Mathlib

/-!
Shallow embedding of pyclowder's connector core (src/pyclowder/connectors.py)
and proofs about its message-lifecycle state machine, staging cleanup, retry
policy, mount remapping, resubmit republish and registration idempotence.

External effects (HTTP calls, downloads, the user callbacks, tempfile name
generation, the local filesystem) are abstracted into an explicit oracle; each
call site either returns a value or raises an exception class.  Exceptions are
classified by the handler that would catch them in Python 2
(SystemExit / KeyboardInterrupt / GeneratorExit / StandardError /
subprocess.CalledProcessError / other Exception).  Side effects are recorded
in explicit trace channels.
-/

namespace PyClowder

/-! ### Python string primitives -/

/-- Characters stripped by Python str.strip(). -/
def pyIsSpace (c : Char) : Bool :=
  c == ' ' || c == '\t' || c == '\n' || c == '\r' || c == '\x0b' || c == '\x0c'

/-- Python str.strip(): drop leading and trailing whitespace. -/
def pyStrip (s : String) : String :=
  String.mk (((s.data.dropWhile pyIsSpace).reverse.dropWhile pyIsSpace).reverse)

/-- Does the list start with the given pattern (Python str.startswith at the
character level)? -/
def listStarts : List Char → List Char → Bool
  | [], _ => true
  | _ :: _, [] => false
  | a :: as, b :: bs => a == b && listStarts as bs

/-- Python s.startswith(pre). -/
def pyStartswith (s pre : String) : Bool :=
  listStarts pre.data s.data

/-- Python s.endswith(suf). -/
def pyEndsWith (s suf : String) : Bool :=
  listStarts suf.data.reverse s.data.reverse

/-- Does the pattern occur anywhere in the list (Python s.find(pat) > -1)? -/
def listOccurs (pat : List Char) : List Char → Bool
  | [] => listStarts pat []
  | c :: rest => listStarts pat (c :: rest) || listOccurs pat rest

/-- Python sub in s / s.find(sub) > -1. -/
def strOccurs (sub s : String) : Bool :=
  listOccurs sub.data s.data

/-- Worker for pyReplace: scans left to right, replacing each non-overlapping
occurrence of pat by rep.  The fuel argument is the length of the scanned list;
each step consumes at least one character. -/
def pyReplaceAux (pat rep : List Char) : Nat → List Char → List Char
  | 0, s => s
  | _ + 1, [] => []
  | fuel + 1, c :: rest =>
    if listStarts pat (c :: rest) then
      rep ++ pyReplaceAux pat rep fuel (List.drop pat.length (c :: rest))
    else
      c :: pyReplaceAux pat rep fuel rest

/-- Python s.replace(pat, rep): replaces ALL occurrences of pat, left to right.
For an empty pattern Python intersperses rep around every character. -/
def pyReplace (s pat rep : String) : String :=
  if pat.data = [] then
    String.mk (rep.data ++ (s.data.map (fun c => c :: rep.data)).flatten)
  else
    String.mk (pyReplaceAux pat.data rep.data s.data.length s.data)

/-- Python s.split(sep) for a one-character separator. -/
def pySplitChar (sep : Char) : List Char → List (List Char)
  | [] => [[]]
  | c :: rest =>
    match pySplitChar sep rest with
    | [] => [[]]
    | p :: ps => if c == sep then [] :: p :: ps else (c :: p) :: ps

/-- The extension part of os.path.splitext: the suffix of the basename starting
at its last dot, except that leading dots of the basename never start an
extension. -/
def pySplitextExt (p : String) : String :=
  let base := (p.data.reverse.takeWhile (fun c => c != '/')).reverse
  let lead := base.takeWhile (fun c => c == '.')
  let rest := base.drop lead.length
  let tl := rest.reverse.takeWhile (fun c => c != '.')
  if tl.length = rest.length then "" else String.mk ('.' :: tl.reverse)

/-- True when the string contains no comma. -/
def commaFree (s : String) : Bool :=
  s.data.all (fun c => c != ',')

/-- Host normalization at the top of _process_message: append a slash unless
one is already present. -/
def normHost (h : String) : String :=
  if pyEndsWith h "/" then h else h ++ "/"

/-! ### Data model -/

/-- pyclowder.utils.CheckMessage. -/
inductive CheckMessage
  | download
  | bypass
  | ignore
deriving DecidableEq, Repr

/-- Classification of a raised Python exception by the handler in
Connector._process_message that would catch it (Python 2 hierarchy). -/
inductive ExcKind
  | systemExit
  | keyboardInterrupt
  | generatorExit
  | standardError
  | calledProcessError
  | otherException
deriving DecidableEq, Repr

/-- pyclowder.utils.StatusMessage. -/
inductive StatusMessage
  | start
  | processing
  | done
  | error
deriving DecidableEq, Repr

/-- A terminal outcome emitted back to the transport: message_ok,
message_error or message_resubmit (with the retry count it carries). -/
inductive Terminal
  | ok
  | error
  | resubmit (retry_count : Int)
deriving DecidableEq, Repr

/-- A file entry as returned by the Clowder file-list / file-info endpoints.
filepath = none models the dict lacking the 'filepath' key. -/
structure FileDescriptor where
  id : String := ""
  filename : String := ""
  filepath : Option String := none
  file_ext : String := ""
deriving DecidableEq, Repr

/-- The resource dict built by Connector._build_resource.  local_paths = none
models the dict lacking the 'local_paths' key (never assigned). -/
structure Resource where
  rtype : String
  id : String := ""
  intermediate_id : String := ""
  name : String := ""
  file_ext : String := ""
  parent_type : String := ""
  parent_id : String := ""
  files : List FileDescriptor := []
  triggering_file : Option String := none
  dataset_name : String := ""
  local_paths : Option (List String) := none
deriving DecidableEq, Repr

/-- Decoded message body; every field is optional (none = key absent). -/
structure MessageBody where
  host : Option String := none
  secretKey : Option String := none
  retry_count : Option Int := none
  id : Option String := none
  intermediateId : Option String := none
  datasetId : Option String := none
  filename : Option String := none
  routing_key : Option String := none
  resourceType : Option String := none
  resourceId : Option String := none
  metadata : Option String := none
  logfile : Option String := none
deriving DecidableEq, Repr

/-- Static connector configuration: extractor_info fields and constructor
arguments.  process_keys is the iteration order of extractor_info['process'];
mounted_paths is the iteration order of the mounted_paths dict. -/
structure Cfg where
  extractor_name : String := "myx"
  process_keys : List String := []
  mounted_paths : List (String × String) := []
  has_check_message : Bool := true
  has_process_message : Bool := true

/-- Oracle fixing the outcome of every external call a single message can
make: each call either returns a value or raises an exception of some class.
Temp names produced by tempfile are also drawn from here. -/
structure Oracle where
  localFiles : List String := []
  check_result : Except ExcKind CheckMessage := .ok .download
  download_info : Except ExcKind FileDescriptor := .ok {}
  file_download : Except ExcKind String := .ok "/tmp/download"
  process_result : Except ExcKind Unit := .ok ()
  ds_get_info : Except ExcKind String := .ok "dsname"
  ds_get_file_list : Except ExcKind (List FileDescriptor) := .ok []
  prep_get_file_list : Except ExcKind (List FileDescriptor) := .ok []
  download_metadata : String → Except ExcKind Unit := fun _ => .ok ()
  md_tmp : String → String × String := fun fid => ("/tmp/dir" ++ fid, "/tmp/md" ++ fid)
  ds_file_download : String → Except ExcKind String := fun fid => .ok ("/tmp/in" ++ fid)
  ds_download_metadata : Except ExcKind Unit := .ok ()
  ds_md_tmp : String × String := ("/tmp/dsdir", "/tmp/dsmd")
  ds_zip_download : Except ExcKind String := .ok "/tmp/ds.zip"
  extract_zip : Except ExcKind (List String) := .ok []

/-- Trace channels for the non-terminal side effects of one message. -/
structure BodyTrace where
  statuses : List (StatusMessage × String) := []
  tmpFilesCreated : List String := []
  tmpDirsCreated : List String := []
  filesRemoved : List String := []
  dirsRemoved : List String := []
  processCalls : List (Option (List String)) := []
deriving DecidableEq, Repr

def BodyTrace.app (a b : BodyTrace) : BodyTrace :=
  { statuses := a.statuses ++ b.statuses
    tmpFilesCreated := a.tmpFilesCreated ++ b.tmpFilesCreated
    tmpDirsCreated := a.tmpDirsCreated ++ b.tmpDirsCreated
    filesRemoved := a.filesRemoved ++ b.filesRemoved
    dirsRemoved := a.dirsRemoved ++ b.dirsRemoved
    processCalls := a.processCalls ++ b.processCalls }

instance : Append BodyTrace := ⟨BodyTrace.app⟩

/-- Result of Connector._build_resource. -/
inductive BuildOut
  | ok (r : Resource)
  | failed
  | raised (e : ExcKind)
deriving DecidableEq, Repr

/-- True exactly when _build_resource let an exception escape (missing
routing_key or missing metadata fields). -/
def BuildOut.isRaised : BuildOut → Bool
  | .raised _ => true
  | _ => false

/-- Result of Connector._process_message: the side-effect trace, the terminal
outcomes, the registration POSTs attempted, the exception re-raised (if any)
and the updated Connector.registered_clowder list. -/
structure PMResult where
  btrace : BodyTrace
  terminals : List Terminal
  posts : List String
  raised : Option ExcKind
  registered : List String

/-! ### Connector._check_for_local_file -/

/-- Connector._check_for_local_file (connectors.py lines 205-222).
If the metadata carries a filepath that exists locally, return it; otherwise
scan mounted_paths in iteration order and, on the first source prefix that
matches, return Python file_path.replace(source, target) — note: replace-all,
not prefix replacement.  host and secret_key are unused, as in the source. -/
def check_for_local_file (mounted_paths : List (String × String))
    (localFiles : List String) (host secret_key : String)
    (file_metadata : FileDescriptor) : Option String :=
  match file_metadata.filepath with
  | none => none
  | some file_path =>
    if localFiles.contains file_path then some file_path
    else
      match mounted_paths.find? (fun st => pyStartswith file_path st.1) with
      | some (source_path, target) => some (pyReplace file_path source_path target)
      | none => none

/-! ### Connector._download_file_metadata and _prepare_dataset -/

/-- Connector._download_file_metadata (lines 224-239): download the file's
metadata (may raise), then create a temp directory and a temp file inside it.
Returns (md_dir, md_file). -/
def download_file_metadata (o : Oracle) (fileid : String) :
    BodyTrace × Except ExcKind (String × String) :=
  match o.download_metadata fileid with
  | .error e => ({}, .error e)
  | .ok _ =>
    let md := o.md_tmp fileid
    ({ tmpDirsCreated := [md.1], tmpFilesCreated := [md.2] }, .ok md)

/-- First loop of _prepare_dataset (lines 249-260): split the dataset's file
list into locally located files (downloading each one's metadata sidecar) and
missing files.  On a raise, the trace keeps the temps created so far but the
result lists are lost (as in the Python locals of _prepare_dataset).
Returns (located_files, missing_files, tmp_files_created, tmp_dirs_created). -/
def locatedLoop (cfg : Cfg) (o : Oracle) :
    List FileDescriptor →
    BodyTrace × Except ExcKind (List String × List FileDescriptor × List String × List String)
  | [] => ({}, .ok ([], [], [], []))
  | ds_file :: rest =>
    match check_for_local_file cfg.mounted_paths o.localFiles "" "" ds_file with
    | none =>
      match locatedLoop cfg o rest with
      | (t, .error e) => (t, .error e)
      | (t, .ok (loc, miss, tf, td)) => (t, .ok (loc, ds_file :: miss, tf, td))
    | some file_path =>
      match download_file_metadata o ds_file.id with
      | (t1, .error e) => (t1, .error e)
      | (t1, .ok (md_dir, md_file)) =>
        match locatedLoop cfg o rest with
        | (t2, .error e) => (t1 ++ t2, .error e)
        | (t2, .ok (loc, miss, tf, td)) =>
          (t1 ++ t2, .ok (file_path :: md_file :: loc, miss, md_file :: tf, md_dir :: td))

/-- Second loop of _prepare_dataset (lines 264-275): download each missing
file plus its metadata sidecar.  Returns (located_additions,
tmp_file_additions, tmp_dir_additions). -/
def missingLoop (o : Oracle) :
    List FileDescriptor →
    BodyTrace × Except ExcKind (List String × List String × List String)
  | [] => ({}, .ok ([], [], []))
  | ds_file :: rest =>
    match o.ds_file_download ds_file.id with
    | .error e => ({}, .error e)
    | .ok inputfile =>
      let dl : BodyTrace := { tmpFilesCreated := [inputfile] }
      match download_file_metadata o ds_file.id with
      | (t1, .error e) => (dl ++ t1, .error e)
      | (t1, .ok (md_dir, md_file)) =>
        match missingLoop o rest with
        | (t2, .error e) => (dl ++ t1 ++ t2, .error e)
        | (t2, .ok (loc, tf, td)) =>
          (dl ++ t1 ++ t2,
           .ok (inputfile :: md_file :: loc, inputfile :: md_file :: tf, md_dir :: td))

/-- Connector._prepare_dataset (lines 241-297).  On success returns
(file_paths, tmp_files_created, tmp_dirs_created); on a raise the trace still
records the temps created before the failure, which the Python caller never
sees (its tmp lists are still empty). -/
def prepare_dataset (cfg : Cfg) (o : Oracle) (resourceId : String) :
    BodyTrace × Except ExcKind (List String × List String × List String) :=
  match o.prep_get_file_list with
  | .error e => ({}, .error e)
  | .ok ds_file_list =>
    match locatedLoop cfg o ds_file_list with
    | (t, .error e) => (t, .error e)
    | (t, .ok (located_files, missing_files, tf, td)) =>
      if located_files.length > 0 then
        match missingLoop o missing_files with
        | (t2, .error e) => (t ++ t2, .error e)
        | (t2, .ok (loc2, tf2, td2)) =>
          match o.ds_download_metadata with
          | .error e => (t ++ t2, .error e)
          | .ok _ =>
            let md := o.ds_md_tmp
            let t3 : BodyTrace := { tmpDirsCreated := [md.1], tmpFilesCreated := [md.2] }
            (t ++ t2 ++ t3,
             .ok (located_files ++ loc2 ++ [md.2], tf ++ tf2 ++ [md.2], td ++ td2 ++ [md.1]))
      else
        match o.ds_zip_download with
        | .error e => (t, .error e)
        | .ok inputzip =>
          let tz : BodyTrace := { tmpFilesCreated := [inputzip] }
          match o.extract_zip with
          | .error e => (t ++ tz, .error e)
          | .ok file_paths =>
            (t ++ tz ++ { tmpFilesCreated := file_paths },
             .ok (file_paths, file_paths ++ [inputzip], []))

/-! ### Connector._build_resource -/

/-- Resource-type classification of _build_resource (lines 129-150).  Note
the final rule iterates over ALL keys of extractor_info['process'], each
iteration overwriting resource_type, so the last key in iteration order
decides. -/
def resourceTypeOf (extractor_name : String) (process_keys : List String)
    (routing_key fileid datasetid : String) : String :=
  if strOccurs ".dataset." routing_key then "dataset"
  else if strOccurs ".file." routing_key then "file"
  else if strOccurs "metadata.added" routing_key then "metadata"
  else if routing_key = "extractors." ++ extractor_name then
    if datasetid = fileid then "dataset" else "file"
  else if pyEndsWith routing_key extractor_name then
    process_keys.foldl (fun _ key => if key = "dataset" then "dataset" else "file") "file"
  else "file"

/-- Connector._build_resource (lines 83-203).  The dataset branch fetches
dataset info and the file list inside a bare try: on ANY exception it emits an
error status plus a message_error terminal and returns None (BuildOut.failed).
A missing routing_key or missing metadata fields raise a KeyError
(a StandardError) that escapes _process_message (BuildOut.raised). -/
def buildResource (cfg : Cfg) (o : Oracle) (body : MessageBody) :
    BodyTrace × BuildOut :=
  let fileid := body.id.getD ""
  let intermediatefileid := body.intermediateId.getD ""
  let datasetid := body.datasetId.getD ""
  let filename := body.filename.getD ""
  match body.routing_key with
  | none => ({}, .raised .standardError)
  | some message_type =>
    let resource_type := resourceTypeOf cfg.extractor_name cfg.process_keys
      message_type fileid datasetid
    if resource_type = "dataset" then
      match o.ds_get_info with
      | .error _ =>
        ({ statuses := [(.error, datasetid), (.error, datasetid)] }, .failed)
      | .ok datasetinfo_name =>
        match o.ds_get_file_list with
        | .error _ =>
          ({ statuses := [(.error, datasetid), (.error, datasetid)] }, .failed)
        | .ok filelist =>
          let triggering_file := (filelist.find? (fun f => f.id = fileid)).map
            (fun f => f.filename)
          ({}, .ok { rtype := "dataset", id := datasetid, files := filelist,
                     triggering_file := triggering_file,
                     dataset_name := datasetinfo_name })
    else if resource_type = "file" then
      ({}, .ok { rtype := "file", id := fileid,
                 intermediate_id := intermediatefileid, name := filename,
                 file_ext := pySplitextExt filename,
                 parent_type := "dataset", parent_id := datasetid })
    else
      match body.resourceId, body.resourceType, body.metadata with
      | some rid, some rt, some _ =>
        ({}, .ok { rtype := "metadata", id := rid,
                   parent_type := rt, parent_id := rid })
      | _, _, _ => ({}, .raised .standardError)

/-! ### Registration -/

/-- Connector.register_extractor (lines 426-452): split the endpoints string
on commas; for each part not already in registered_clowder, append it and
attempt a POST to the stripped url (POST failures are logged and swallowed, so
the POST outcome is irrelevant to the state).  Returns (attempted POST urls,
updated registered_clowder). -/
def regFoldStep (acc : List String × List String) (u0 : List Char) :
    List String × List String :=
  let url : String := String.mk u0
  if acc.2.contains url then acc
  else (acc.1 ++ [pyStrip url], acc.2 ++ [url])

def register_extractor (registered : List String) (endpoints : String) :
    List String × List String :=
  if endpoints = "" then ([], registered)
  else (pySplitChar ',' endpoints.data).foldl regFoldStep ([], registered)

/-- Registration step of _process_message (lines 321-325): if the host's
registration url is not in Connector.registered_clowder, append it and call
register_extractor with the keyed endpoint.  Returns (POST urls, updated
registered_clowder). -/
def regBlock (registered : List String) (host secret_key : String) :
    List String × List String :=
  let url := host ++ "api/extractors"
  if registered.contains url then ([], registered)
  else register_extractor (registered ++ [url]) (url ++ "?key=" ++ secret_key)

/-! ### The body of the try block of _process_message -/

/-- File-message branch (lines 340-361): inner try (optionally download the
file unless check said bypass, set local_paths, call process_message) with a
finally that removes the downloaded temp file unless the file was found
locally.  Returns the trace and the exception escaping the branch, if any. -/
def fileBranch (cfg : Cfg) (o : Oracle) (r : Resource) (check_result : CheckMessage) :
    BodyTrace × Option ExcKind :=
  if check_result = .bypass then
    -- resource['local_paths'] is never assigned on this path
    match o.process_result with
    | .ok _ => ({ processCalls := [r.local_paths] }, none)
    | .error e => ({ processCalls := [r.local_paths] }, some e)
  else
    match o.download_info with
    | .error e => ({}, some e)
    | .ok file_metadata =>
      match check_for_local_file cfg.mounted_paths o.localFiles "" "" file_metadata with
      | some file_path =>
        -- found_local = True: the finally does not remove it
        match o.process_result with
        | .ok _ => ({ processCalls := [some [file_path]] }, none)
        | .error e => ({ processCalls := [some [file_path]] }, some e)
      | none =>
        match o.file_download with
        | .error e => ({}, some e)
        | .ok file_path =>
          match o.process_result with
          | .ok _ =>
            ({ tmpFilesCreated := [file_path], processCalls := [some [file_path]],
               filesRemoved := [file_path] }, none)
          | .error e =>
            ({ tmpFilesCreated := [file_path], processCalls := [some [file_path]],
               filesRemoved := [file_path] }, some e)

/-- Dataset/metadata branch (lines 364-382): inner try (unless bypass, run
_prepare_dataset; set local_paths; call process_message) with a finally that
removes the tmp_files and tmp_dirs lists — which are still empty if
_prepare_dataset raised, so temps created before the failure leak. -/
def datasetBranch (cfg : Cfg) (o : Oracle) (r : Resource) (check_result : CheckMessage) :
    BodyTrace × Option ExcKind :=
  if check_result = .bypass then
    match o.process_result with
    | .ok _ => ({ processCalls := [some []] }, none)
    | .error e => ({ processCalls := [some []] }, some e)
  else
    match prepare_dataset cfg o r.id with
    | (t, .error e) => (t, some e)
    | (t, .ok (file_paths, tmp_files, tmp_dirs)) =>
      let callT : BodyTrace := { processCalls := [some file_paths] }
      let finT : BodyTrace := { filesRemoved := tmp_files, dirsRemoved := tmp_dirs }
      match o.process_result with
      | .ok _ => (t ++ callT ++ finT, none)
      | .error e => (t ++ callT ++ finT, some e)

/-- The try body of _process_message (lines 332-385, excluding message_ok):
run check_message (default download), dispatch to the file or
dataset/metadata branch, or emit the skipped status on ignore. -/
def tryBody (cfg : Cfg) (o : Oracle) (r : Resource) : BodyTrace × Option ExcKind :=
  let check_result : Except ExcKind CheckMessage :=
    if cfg.has_check_message then o.check_result else .ok .download
  match check_result with
  | .error e => ({}, some e)
  | .ok cr =>
    if cr = .ignore then
      ({ statuses := [(.processing, r.id)] }, none)
    else if cfg.has_process_message then
      if r.rtype = "file" then fileBranch cfg o r cr
      else datasetBranch cfg o r cr
    else ({}, none)

/-- The exception handlers of _process_message (lines 389-424): each emits an
error status, then a terminal (with its own status), and the fatal kinds
re-raise.  Returns (trace, terminals, re-raised exception). -/
def handlerFor (e : ExcKind) (rid : String) (retry_count : Int) :
    BodyTrace × List Terminal × Option ExcKind :=
  match e with
  | .systemExit =>
    ({ statuses := [(.error, rid), (.processing, rid)] }, [.resubmit retry_count], some .systemExit)
  | .keyboardInterrupt =>
    ({ statuses := [(.error, rid), (.processing, rid)] }, [.resubmit retry_count], some .keyboardInterrupt)
  | .generatorExit =>
    ({ statuses := [(.error, rid), (.processing, rid)] }, [.resubmit retry_count], some .generatorExit)
  | .standardError =>
    if retry_count < 10 then
      ({ statuses := [(.error, rid), (.processing, rid)] }, [.resubmit (retry_count + 1)], none)
    else
      ({ statuses := [(.error, rid), (.error, rid)] }, [.error], none)
  | .calledProcessError =>
    ({ statuses := [(.error, rid), (.error, rid)] }, [.error], none)
  | .otherException =>
    ({ statuses := [(.error, rid), (.error, rid)] }, [.error], none)

/-! ### Connector._process_message -/

/-- Connector._process_message (lines 300-424).  Drops the message when host
is empty; builds the resource (whose failure path already emitted its own
error terminal); registers the extractor once per registration url; emits the
start status; runs the try body; then either message_ok or the matching
exception handler. -/
def processMessageM (cfg : Cfg) (o : Oracle) (registered : List String)
    (body : MessageBody) : PMResult :=
  if body.host.getD "" = "" then
    { btrace := {}, terminals := [], posts := [], raised := none, registered := registered }
  else
    let host := normHost (body.host.getD "")
    let secret_key := body.secretKey.getD ""
    let retry_count : Int := body.retry_count.getD 0
    let b := buildResource cfg o body
    match b.2 with
    | .raised e =>
      { btrace := b.1, terminals := [], posts := [], raised := some e, registered := registered }
    | .failed =>
      { btrace := b.1, terminals := [.error], posts := [], raised := none, registered := registered }
    | .ok r =>
      let rb := regBlock registered host secret_key
      let startT : BodyTrace := { statuses := [(.start, r.id)] }
      let tb := tryBody cfg o r
      match tb.2 with
      | none =>
        { btrace := b.1 ++ startT ++ tb.1 ++ { statuses := [(.done, r.id)] },
          terminals := [.ok], posts := rb.1, raised := none, registered := rb.2 }
      | some e =>
        let h := handlerFor e r.id retry_count
        { btrace := b.1 ++ startT ++ tb.1 ++ h.1,
          terminals := h.2.1, posts := rb.1, raised := h.2.2, registered := rb.2 }

/-- Process a sequence of messages in one process, threading
Connector.registered_clowder.  Returns (all POST urls, final list). -/
def runMessages (cfg : Cfg) (registered : List String) :
    List (MessageBody × Oracle) → List String × List String
  | [] => ([], registered)
  | m :: rest =>
    let pm := processMessageM cfg m.2 registered m.1
    let r := runMessages cfg pm.registered rest
    (pm.posts ++ r.1, r.2)

/-! ### RabbitMQHandler.process_messages, resubmit record -/

/-- A decoded JSON message body for the republish model: the three fields the
resubmit branch touches, plus the remaining fields kept opaque. -/
structure PBody where
  retry_count : Option Int := none
  exchange : Option String := none
  routing_key : Option String := none
  rest : List (String × String) := []
deriving DecidableEq, Repr

/-- RabbitMQHandler.process_messages, resubmit branch (lines 738-754): decode
the original delivery body, overwrite retry_count, fill exchange from the
delivery metadata when the body lacks it and method.exchange is non-empty,
fill routing_key when the body lacks it and method.routing_key is non-empty
and differs from the work queue name; publish to the work queue.  Returns
(publish routing key, republished body). -/
def resubmitRepublish (extractor_name : String) (origBody : PBody)
    (methodExchange methodRoutingKey : String) (retry_count : Int) :
    String × PBody :=
  let queue := extractor_name
  let jbody := { origBody with retry_count := some retry_count }
  let jbody :=
    if jbody.exchange = none ∧ methodExchange ≠ "" then
      { jbody with exchange := some methodExchange }
    else jbody
  let jbody :=
    if jbody.routing_key = none ∧ methodRoutingKey ≠ "" ∧ methodRoutingKey ≠ queue then
      { jbody with routing_key := some methodRoutingKey }
    else jbody
  (queue, jbody)

/-! ### HPCConnector.listen -/

/-- One pickle file of the batch: either loading it raises, or it yields a
message body (whose logfile field the source reads before processing). -/
inductive HpcItem
  | loadFail (e : ExcKind)
  | loadOk (body : MessageBody) (o : Oracle)

/-- Result of HPCConnector.listen over a list of pickle files. -/
structure HpcResult where
  traces : List PMResult
  raised : Option ExcKind
  registered : List String
  logfile : Option String

/-- HPCConnector.listen, list branch (lines 809-817): per file, a try/finally
with NO except clause — load the pickle, set self.logfile, process the
message; the finally clears self.logfile, but any exception (load failure,
missing logfile key, or an exception escaping _process_message) propagates and
stops the whole batch. -/
def hpcListen (cfg : Cfg) (registered : List String) : List HpcItem → HpcResult
  | [] => { traces := [], raised := none, registered := registered, logfile := none }
  | item :: rest =>
    match item with
    | .loadFail e =>
      { traces := [], raised := some e, registered := registered, logfile := none }
    | .loadOk body o =>
      match body.logfile with
      | none =>
        -- body['logfile'] raises KeyError (a StandardError)
        { traces := [], raised := some .standardError, registered := registered,
          logfile := none }
      | some _ =>
        let pm := processMessageM cfg o registered body
        match pm.raised with
        | some e =>
          { traces := [pm], raised := some e, registered := pm.registered, logfile := none }
        | none =>
          let r := hpcListen cfg pm.registered rest
          { traces := pm :: r.traces, raised := r.raised, registered := r.registered,
            logfile := none }

/-! ### Auxiliary definitions used in claim statements -/

/-- Last element of the process-keys iteration order. -/
def lastOf : List String → Option String
  | [] => none
  | [k] => some k
  | _ :: k :: rest => lastOf (k :: rest)

def exceptIsOk : Except ExcKind α → Bool
  | .ok _ => true
  | .error _ => false

/-- When the message builds a resource, does _prepare_dataset succeed for it?
(Trivially true when no resource is built.)  Used as the staging-success
hypothesis of the amended cleanup claim. -/
def prepOkForBody (cfg : Cfg) (o : Oracle) (body : MessageBody) : Bool :=
  match (buildResource cfg o body).2 with
  | .ok r => exceptIsOk (prepare_dataset cfg o r.id).2
  | _ => true

/-! ### Concrete inputs for witnesses and counterexamples -/

/-- A typical file message. -/
def fileBody : MessageBody :=
  { host := some "http://h/", secretKey := some "k", id := some "f1",
    intermediateId := some "f1", datasetId := some "d1",
    filename := some "x.csv", routing_key := some "x.file.added" }

/-- The resource _build_resource builds from fileBody. -/
def fileResource : Resource :=
  { rtype := "file", id := "f1", intermediate_id := "f1", name := "x.csv",
    file_ext := ".csv", parent_type := "dataset", parent_id := "d1" }

/-- A typical dataset message. -/
def dsBody : MessageBody :=
  { host := some "http://h/", id := some "fA", datasetId := some "d1",
    routing_key := some "x.dataset.file.added" }

def defaultCfg : Cfg := {}

def noCheckCfg : Cfg := { has_check_message := false }

/-- Oracle for a successful file download run. -/
def happyOracle : Oracle := {}

/-- Oracle where the user process_message raises a StandardError. -/
def failOracle : Oracle := { process_result := .error .standardError }

/-- Oracle where check_message returns bypass. -/
def bypassOracle : Oracle := { check_result := .ok .bypass }

/-- Oracle making dataset staging fail partway: both dataset files resolve
locally, the first sidecar metadata download succeeds (creating a temp dir and
file), the second raises. -/
def leakOracle : Oracle :=
  { ds_get_info := .ok "DS",
    ds_get_file_list := .ok [{ id := "fA", filepath := some "/m/a" },
                             { id := "fB", filepath := some "/m/b" }],
    prep_get_file_list := .ok [{ id := "fA", filepath := some "/m/a" },
                               { id := "fB", filepath := some "/m/b" }],
    localFiles := ["/m/a", "/m/b"],
    download_metadata := fun fid => if fid = "fA" then .ok () else .error .standardError }

/-- leakOracle with a bypass check result (staging is then skipped, so the
failing metadata download is never reached). -/
def bypassLeakOracle : Oracle := { leakOracle with check_result := .ok .bypass }

/-- Oracle for a successful partial-local dataset staging run: file fA is
local, fB is downloaded, all metadata downloads succeed. -/
def dsHappyOracle : Oracle :=
  { ds_get_info := .ok "DS",
    ds_get_file_list := .ok [{ id := "fA", filepath := some "/m/a" },
                             { id := "fB", filepath := some "/m/b" }],
    prep_get_file_list := .ok [{ id := "fA", filepath := some "/m/a" },
                               { id := "fB", filepath := some "/m/b" }],
    localFiles := ["/m/a"] }

/-- The resource _build_resource builds from dsBody with leakOracle-style
file lists. -/
def dsResource : Resource :=
  { rtype := "dataset", id := "d1",
    files := [{ id := "fA", filepath := some "/m/a" },
              { id := "fB", filepath := some "/m/b" }],
    triggering_file := some "", dataset_name := "DS" }

/-- One batch item is clean when it loads, carries a logfile, and its message
does not re-raise out of _process_message. -/
def itemClean (cfg : Cfg) : HpcItem → Bool
  | .loadFail _ => false
  | .loadOk body o => body.logfile.isSome && (processMessageM cfg o [] body).raised.isNone

/-- A message body with a host but no routing key (for C5 only the host
matters). -/
def emptyHostBody : MessageBody := { routing_key := some "x.file.added" }

/-- The original delivery body of the C7 counterexample: it lacks
routing_key. -/
def c7OrigBody : PBody := { retry_count := some 3, exchange := some "clowder" }

/-- fileBody with the logfile key, as an HPC pickle body. -/
def hpcBody : MessageBody := { fileBody with logfile := some "/tmp/log" }

/-- An HPC batch whose first pickle fails to load. -/
def c9Items : List HpcItem :=
  [.loadFail .otherException, .loadOk hpcBody happyOracle]

end PyClowder

namespace PyClowder

/-! ### Helper lemmas -/

@[simp] theorem app_statuses (a b : BodyTrace) :
    (a ++ b).statuses = a.statuses ++ b.statuses := rfl

@[simp] theorem app_tmpFilesCreated (a b : BodyTrace) :
    (a ++ b).tmpFilesCreated = a.tmpFilesCreated ++ b.tmpFilesCreated := rfl

@[simp] theorem app_tmpDirsCreated (a b : BodyTrace) :
    (a ++ b).tmpDirsCreated = a.tmpDirsCreated ++ b.tmpDirsCreated := rfl

@[simp] theorem app_filesRemoved (a b : BodyTrace) :
    (a ++ b).filesRemoved = a.filesRemoved ++ b.filesRemoved := rfl

@[simp] theorem app_dirsRemoved (a b : BodyTrace) :
    (a ++ b).dirsRemoved = a.dirsRemoved ++ b.dirsRemoved := rfl

@[simp] theorem app_processCalls (a b : BodyTrace) :
    (a ++ b).processCalls = a.processCalls ++ b.processCalls := rfl

/-- Every handler of _process_message emits exactly one terminal. -/
theorem handlerFor_len (e : ExcKind) (rid : String) (rc : Int) :
    (handlerFor e rid rc).2.1.length = 1 := by
  cases e <;> simp only [handlerFor] <;> first | rfl | (split <;> rfl)

/-- _build_resource never emits temp-file, removal or process-call events,
and a successfully built resource has no local_paths key and an empty build
trace. -/
theorem buildResource_shape (cfg : Cfg) (o : Oracle) (body : MessageBody) :
    (buildResource cfg o body).1.tmpFilesCreated = [] ∧
    (buildResource cfg o body).1.tmpDirsCreated = [] ∧
    (buildResource cfg o body).1.filesRemoved = [] ∧
    (buildResource cfg o body).1.dirsRemoved = [] ∧
    (buildResource cfg o body).1.processCalls = [] ∧
    ∀ r, (buildResource cfg o body).2 = BuildOut.ok r →
      (buildResource cfg o body).1 = {} ∧ r.local_paths = none := by
  unfold buildResource
  dsimp only
  repeat' split
  all_goals simp

theorem buildResource_ok_facts (cfg : Cfg) (o : Oracle) (body : MessageBody)
    (r : Resource) (h : (buildResource cfg o body).2 = BuildOut.ok r) :
    (buildResource cfg o body).1 = {} ∧ r.local_paths = none :=
  (buildResource_shape cfg o body).2.2.2.2.2 r h

@[simp] theorem handlerFor_tmpFilesCreated (e : ExcKind) (rid : String) (rc : Int) :
    (handlerFor e rid rc).1.tmpFilesCreated = [] := by
  cases e <;> simp only [handlerFor] <;> first | rfl | (split <;> rfl)

@[simp] theorem handlerFor_tmpDirsCreated (e : ExcKind) (rid : String) (rc : Int) :
    (handlerFor e rid rc).1.tmpDirsCreated = [] := by
  cases e <;> simp only [handlerFor] <;> first | rfl | (split <;> rfl)

@[simp] theorem handlerFor_filesRemoved (e : ExcKind) (rid : String) (rc : Int) :
    (handlerFor e rid rc).1.filesRemoved = [] := by
  cases e <;> simp only [handlerFor] <;> first | rfl | (split <;> rfl)

@[simp] theorem handlerFor_dirsRemoved (e : ExcKind) (rid : String) (rc : Int) :
    (handlerFor e rid rc).1.dirsRemoved = [] := by
  cases e <;> simp only [handlerFor] <;> first | rfl | (split <;> rfl)

@[simp] theorem handlerFor_processCalls (e : ExcKind) (rid : String) (rc : Int) :
    (handlerFor e rid rc).1.processCalls = [] := by
  cases e <;> simp only [handlerFor] <;> first | rfl | (split <;> rfl)

/-- Under a bypass check result, the try body of _process_message does no
staging at all and makes exactly one process_message call, whose local_paths
is the resource's own (never assigned) value in the file branch and [] in the
dataset/metadata branch. -/
theorem tryBody_bypass (cfg : Cfg) (o : Oracle) (r : Resource)
    (hcheck : cfg.has_check_message = true)
    (hres : o.check_result = .ok .bypass)
    (hproc : cfg.has_process_message = true) :
    (tryBody cfg o r).1 =
      { processCalls := [if r.rtype = "file" then r.local_paths else some []] } := by
  unfold tryBody fileBranch datasetBranch
  simp only [hcheck, hres, hproc]
  by_cases hr : r.rtype = "file" <;>
    rcases hp : o.process_result with e | u <;>
    simp [hr, hp]

theorem listStarts_append_self (l t : List Char) : listStarts l (l ++ t) = true := by
  induction l with
  | nil => rfl
  | cons c cs ih => simp [listStarts, ih]

/-- If the pattern occurs nowhere in s, the replace scan leaves s unchanged. -/
theorem pyReplaceAux_no_occur (pat rep : List Char) :
    ∀ (fuel : Nat) (s : List Char), s.length ≤ fuel → listOccurs pat s = false →
      pyReplaceAux pat rep fuel s = s := by
  intro fuel
  induction fuel with
  | zero => intro s _ _; rfl
  | succ n ih =>
    intro s hlen hocc
    cases s with
    | nil => rfl
    | cons c rest =>
      simp only [listOccurs, Bool.or_eq_false_iff] at hocc
      unfold pyReplaceAux
      rw [if_neg (by simp [hocc.1])]
      rw [ih rest (by simp at hlen; omega) hocc.2]

/-- If the pattern occurs only as the leading segment, the replace scan
replaces exactly that segment. -/
theorem pyReplaceAux_head (p : Char) (pt rep suffix : List Char)
    (hocc : listOccurs (p :: pt) suffix = false) (fuel : Nat)
    (hfuel : ((p :: pt) ++ suffix).length ≤ fuel + 1) :
    pyReplaceAux (p :: pt) rep (fuel + 1) ((p :: pt) ++ suffix) = rep ++ suffix := by
  have hlen : suffix.length ≤ fuel := by
    simp [List.length_append] at hfuel
    omega
  rw [List.cons_append]
  unfold pyReplaceAux
  rw [if_pos (by rw [← List.cons_append]; exact listStarts_append_self _ _)]
  rw [show List.drop (p :: pt).length (p :: (pt ++ suffix)) = suffix by
    simp [List.drop_succ_cons, List.drop_left]]
  rw [pyReplaceAux_no_occur (p :: pt) rep fuel suffix hlen hocc]

/-- Python replace on S ++ rest with pattern S gives T ++ rest provided S
does not occur in rest. -/
theorem pyReplace_head (S T rest : String) (hS : S ≠ "")
    (hocc : listOccurs S.data rest.data = false) :
    pyReplace (S ++ rest) S T = T ++ rest := by
  rcases S with ⟨sd⟩
  cases sd with
  | nil => exact absurd rfl hS
  | cons p pt =>
    rcases rest with ⟨rd⟩
    show pyReplace ⟨(p :: pt) ++ rd⟩ ⟨p :: pt⟩ T = T ++ ⟨rd⟩
    unfold pyReplace
    rw [if_neg (by simp)]
    show String.mk (pyReplaceAux (p :: pt) T.data ((p :: pt) ++ rd).length
      ((p :: pt) ++ rd)) = T ++ ⟨rd⟩
    have h1 : ((p :: pt) ++ rd).length = (pt.length + rd.length) + 1 := by
      simp only [List.length_append, List.length_cons]
      omega
    rw [h1, pyReplaceAux_head p pt T.data rd hocc _ (by rw [← h1])]
    cases T
    rfl

/-- A successful _download_file_metadata call creates exactly its temp dir
and temp file. -/
theorem download_file_metadata_ok (o : Oracle) (fid : String) (t : BodyTrace)
    (d f : String) (h : download_file_metadata o fid = (t, .ok (d, f))) :
    t = { tmpDirsCreated := [d], tmpFilesCreated := [f] } := by
  unfold download_file_metadata at h
  rcases hm : o.download_metadata fid with e | u
  · rw [hm] at h
    simp at h
  · rw [hm] at h
    simp only [Prod.mk.injEq, Except.ok.injEq] at h
    obtain ⟨ht, hmd⟩ := h
    subst ht
    rw [hmd]

/-- On success, the temps recorded in the located-loop trace are exactly the
returned tmp lists, and an empty located list means no temps were created. -/
theorem locatedLoop_ok (cfg : Cfg) (o : Oracle) (l : List FileDescriptor) :
    ∀ t loc miss tf td,
      locatedLoop cfg o l = (t, .ok (loc, miss, tf, td)) →
      t.tmpFilesCreated = tf ∧ t.tmpDirsCreated = td ∧
      t.filesRemoved = [] ∧ t.dirsRemoved = [] ∧ t.processCalls = [] ∧
      (loc = [] → tf = [] ∧ td = []) := by
  induction l with
  | nil =>
    intro t loc miss tf td h
    unfold locatedLoop at h
    simp only [Prod.mk.injEq, Except.ok.injEq] at h
    obtain ⟨ht, h1, h2, h3, h4⟩ := h
    subst ht h1 h3 h4
    simp
  | cons df rest ih =>
    intro t loc miss tf td h
    unfold locatedLoop at h
    rcases hc : check_for_local_file cfg.mounted_paths o.localFiles "" "" df with _ | fp
    · rw [hc] at h
      rcases hrec : locatedLoop cfg o rest with ⟨t2, res2⟩
      rw [hrec] at h
      rcases res2 with e | ⟨loc2, miss2, tf2, td2⟩
      · simp at h
      · simp only [Prod.mk.injEq, Except.ok.injEq] at h
        obtain ⟨ht, hloc, hmiss, htf, htd⟩ := h
        obtain ⟨f1, f2, f3, f4, f5, f6⟩ := ih t2 loc2 miss2 tf2 td2 hrec
        subst ht hloc htf htd
        exact ⟨f1, f2, f3, f4, f5, f6⟩
    · rw [hc] at h
      rcases hmd : download_file_metadata o df.id with ⟨t1, res1⟩
      rw [hmd] at h
      rcases res1 with e | ⟨d, f⟩
      · simp at h
      · rcases hrec : locatedLoop cfg o rest with ⟨t2, res2⟩
        rw [hrec] at h
        rcases res2 with e | ⟨loc2, miss2, tf2, td2⟩
        · simp at h
        · simp only [Prod.mk.injEq, Except.ok.injEq] at h
          obtain ⟨ht, hloc, hmiss, htf, htd⟩ := h
          obtain ⟨f1, f2, f3, f4, f5, f6⟩ := ih t2 loc2 miss2 tf2 td2 hrec
          have ht1 := download_file_metadata_ok o df.id t1 d f hmd
          subst ht ht1 hloc htf htd
          refine ⟨?_, ?_, ?_, ?_, ?_, ?_⟩
          · simp [f1]
          · simp [f2]
          · simp [f3]
          · simp [f4]
          · simp [f5]
          · intro hx
            exact absurd hx (by simp)

/-- On success, the temps recorded in the missing-loop trace are exactly the
returned tmp lists. -/
theorem missingLoop_ok (o : Oracle) (l : List FileDescriptor) :
    ∀ t loc tf td,
      missingLoop o l = (t, .ok (loc, tf, td)) →
      t.tmpFilesCreated = tf ∧ t.tmpDirsCreated = td ∧
      t.filesRemoved = [] ∧ t.dirsRemoved = [] ∧ t.processCalls = [] := by
  induction l with
  | nil =>
    intro t loc tf td h
    unfold missingLoop at h
    simp only [Prod.mk.injEq, Except.ok.injEq] at h
    obtain ⟨ht, h1, h2, h3⟩ := h
    subst ht h2 h3
    simp
  | cons df rest ih =>
    intro t loc tf td h
    unfold missingLoop at h
    rcases hdl : o.ds_file_download df.id with e | inputfile
    · rw [hdl] at h
      simp at h
    · rw [hdl] at h
      rcases hmd : download_file_metadata o df.id with ⟨t1, res1⟩
      rw [hmd] at h
      rcases res1 with e | ⟨d, f⟩
      · simp at h
      · rcases hrec : missingLoop o rest with ⟨t2, res2⟩
        rw [hrec] at h
        rcases res2 with e | ⟨loc2, tf2, td2⟩
        · simp at h
        · simp only [Prod.mk.injEq, Except.ok.injEq] at h
          obtain ⟨ht, hloc, htf, htd⟩ := h
          obtain ⟨f1, f2, f3, f4, f5⟩ := ih t2 loc2 tf2 td2 hrec
          have ht1 := download_file_metadata_ok o df.id t1 d f hmd
          subst ht ht1 hloc htf htd
          refine ⟨?_, ?_, ?_, ?_, ?_⟩
          · simp [f1]
          · simp [f2]
          · simp [f3]
          · simp [f4]
          · simp [f5]

/-- On success, the temps recorded in the _prepare_dataset trace are (as
sets) exactly the returned tmp_files_created and tmp_dirs_created lists. -/
theorem prepare_dataset_ok_mem (cfg : Cfg) (o : Oracle) (rid : String)
    (t : BodyTrace) (fps tf td : List String)
    (h : prepare_dataset cfg o rid = (t, .ok (fps, tf, td))) :
    (∀ p, p ∈ t.tmpFilesCreated ↔ p ∈ tf) ∧
    (∀ d, d ∈ t.tmpDirsCreated ↔ d ∈ td) ∧
    t.filesRemoved = [] ∧ t.dirsRemoved = [] ∧ t.processCalls = [] := by
  unfold prepare_dataset at h
  rcases hfl : o.prep_get_file_list with e | dsl
  · rw [hfl] at h
    simp at h
  · rw [hfl] at h
    dsimp only at h
    rcases hloc : locatedLoop cfg o dsl with ⟨t1, res1⟩
    rw [hloc] at h
    rcases res1 with e | ⟨located, missing, tf1, td1⟩
    · simp at h
    · dsimp only at h
      obtain ⟨g1, g2, g3, g4, g5, g6⟩ :=
        locatedLoop_ok cfg o dsl t1 located missing tf1 td1 hloc
      by_cases hlen : located.length > 0
      · rw [if_pos hlen] at h
        rcases hmis : missingLoop o missing with ⟨t2, res2⟩
        rw [hmis] at h
        rcases res2 with e | ⟨loc2, tf2, td2⟩
        · simp at h
        · dsimp only at h
          obtain ⟨m1, m2, m3, m4, m5⟩ := missingLoop_ok o missing t2 loc2 tf2 td2 hmis
          rcases hdm : o.ds_download_metadata with e | u
          · rw [hdm] at h
            simp at h
          · rw [hdm] at h
            simp only [Prod.mk.injEq, Except.ok.injEq] at h
            obtain ⟨ht, hfps, htf, htd⟩ := h
            subst ht htf htd
            refine ⟨fun p => ?_, fun d => ?_, ?_, ?_, ?_⟩ <;>
              simp [g1, g2, g3, g4, g5, m1, m2, m3, m4, m5]
      · rw [if_neg hlen] at h
        have hl0 : located = [] := by
          cases located with
          | nil => rfl
          | cons a b => exact absurd (by simp) hlen
        obtain ⟨htf1, htd1⟩ := g6 hl0
        rcases hz : o.ds_zip_download with e | zipp
        · rw [hz] at h
          simp at h
        · rw [hz] at h
          rcases hx : o.extract_zip with e | fps2
          · rw [hx] at h
            simp at h
          · rw [hx] at h
            simp only [Prod.mk.injEq, Except.ok.injEq] at h
            obtain ⟨ht, hfps, htf, htd⟩ := h
            subst ht htf htd
            refine ⟨fun p => ?_, fun d => ?_, ?_, ?_, ?_⟩ <;>
              simp [g1, g2, g3, g4, g5, htf1, htd1] <;> tauto

/-- In the file branch every created temp is removed and only created temps
are removed (the downloaded file is deleted unless found locally; a local
path is never tracked as a temp). -/
theorem fileBranch_clean (cfg : Cfg) (o : Oracle) (r : Resource)
    (cr : CheckMessage) :
    (fileBranch cfg o r cr).1.tmpFilesCreated =
      (fileBranch cfg o r cr).1.filesRemoved ∧
    (fileBranch cfg o r cr).1.tmpDirsCreated = [] ∧
    (fileBranch cfg o r cr).1.dirsRemoved = [] := by
  unfold fileBranch
  repeat' split
  all_goals simp

/-- In the dataset branch, provided _prepare_dataset succeeds, created and
removed temps coincide as sets. -/
theorem datasetBranch_clean (cfg : Cfg) (o : Oracle) (r : Resource)
    (cr : CheckMessage)
    (hprep : exceptIsOk (prepare_dataset cfg o r.id).2 = true) :
    (∀ p, p ∈ (datasetBranch cfg o r cr).1.tmpFilesCreated ↔
      p ∈ (datasetBranch cfg o r cr).1.filesRemoved) ∧
    (∀ d, d ∈ (datasetBranch cfg o r cr).1.tmpDirsCreated ↔
      d ∈ (datasetBranch cfg o r cr).1.dirsRemoved) := by
  unfold datasetBranch
  by_cases hb : cr = .bypass
  · rw [if_pos hb]
    rcases hp : o.process_result with e | u <;> simp
  · rw [if_neg hb]
    rcases hpd : prepare_dataset cfg o r.id with ⟨t, res⟩
    rcases res with e | ⟨fps, tf, td⟩
    · rw [hpd] at hprep
      simp [exceptIsOk] at hprep
    · obtain ⟨q1, q2, q3, q4, q5⟩ := prepare_dataset_ok_mem cfg o r.id t fps tf td hpd
      dsimp only
      rcases hp : o.process_result with e | u <;>
        refine ⟨fun p => ?_, fun d => ?_⟩ <;>
        simp [hp, q3, q4, q1, q2]

/-- The whole try body preserves the cleanup invariant whenever
_prepare_dataset succeeds for the resource. -/
theorem tryBody_clean (cfg : Cfg) (o : Oracle) (r : Resource)
    (hprep : exceptIsOk (prepare_dataset cfg o r.id).2 = true) :
    (∀ p, p ∈ (tryBody cfg o r).1.tmpFilesCreated ↔
      p ∈ (tryBody cfg o r).1.filesRemoved) ∧
    (∀ d, d ∈ (tryBody cfg o r).1.tmpDirsCreated ↔
      d ∈ (tryBody cfg o r).1.dirsRemoved) := by
  unfold tryBody
  dsimp only
  split
  · simp
  · split
    · simp
    · split
      · split
        · obtain ⟨e1, e2, e3⟩ := fileBranch_clean cfg o r _
          exact ⟨fun p => by rw [e1], fun d => by rw [e2, e3]⟩
        · exact datasetBranch_clean cfg o r _ hprep
      · simp

/-- The registration fold only appends to registered_clowder. -/
theorem regFoldStep_mono (parts : List (List Char)) :
    ∀ acc : List String × List String,
      ∃ tail, (parts.foldl regFoldStep acc).2 = acc.2 ++ tail := by
  induction parts with
  | nil => intro acc; exact ⟨[], by simp⟩
  | cons p ps ih =>
    intro acc
    by_cases hc : acc.2.contains (String.mk p) = true
    · have hstep : regFoldStep acc p = acc := by
        simp only [regFoldStep]
        rw [if_pos hc]
      rw [List.foldl_cons, hstep]
      exact ih acc
    · have hstep : regFoldStep acc p =
          (acc.1 ++ [pyStrip (String.mk p)], acc.2 ++ [String.mk p]) := by
        simp only [regFoldStep]
        rw [if_neg (by simp_all)]
      rw [List.foldl_cons, hstep]
      obtain ⟨t, ht⟩ :=
        ih (acc.1 ++ [pyStrip (String.mk p)], acc.2 ++ [String.mk p])
      exact ⟨String.mk p :: t, by simp [ht]⟩

/-- The registration fold attempts at most one POST per part. -/
theorem regFoldStep_posts_len (parts : List (List Char)) :
    ∀ acc : List String × List String,
      (parts.foldl regFoldStep acc).1.length ≤ acc.1.length + parts.length := by
  induction parts with
  | nil => intro acc; simp
  | cons p ps ih =>
    intro acc
    rw [List.foldl_cons]
    by_cases hc : acc.2.contains (String.mk p) = true
    · have hstep : regFoldStep acc p = acc := by
        simp only [regFoldStep]
        rw [if_pos hc]
      rw [hstep]
      have := ih acc
      simp only [List.length_cons]
      omega
    · have hstep : regFoldStep acc p =
          (acc.1 ++ [pyStrip (String.mk p)], acc.2 ++ [String.mk p]) := by
        simp only [regFoldStep]
        rw [if_neg (by simp_all)]
      rw [hstep]
      have h2 := ih (acc.1 ++ [pyStrip (String.mk p)], acc.2 ++ [String.mk p])
      have h3 : (acc.1 ++ [pyStrip (String.mk p)], acc.2 ++ [String.mk p]).1.length
          = acc.1.length + 1 := by simp
      rw [h3] at h2
      simp only [List.length_cons]
      omega

/-- Python split on a separator that does not occur yields the whole string
as the single part. -/
theorem pySplitChar_no_sep (sep : Char) (s : List Char)
    (h : ∀ c ∈ s, ¬ c = sep) :
    pySplitChar sep s = [s] := by
  induction s with
  | nil => rfl
  | cons c rest ih =>
    have hcs : (c == sep) = false := by
      simp [h c (List.mem_cons_self c rest)]
    unfold pySplitChar
    rw [ih (fun x hx => h x (List.mem_cons_of_mem c hx)), hcs]
    rfl

/-- A comma-free string has no comma among its characters. -/
theorem commaFree_spec (s : String) (h : commaFree s = true) :
    ∀ c ∈ s.data, ¬ c = ',' := by
  unfold commaFree at h
  rw [List.all_eq_true] at h
  intro c hc
  have := h c hc
  simpa using this

theorem commaFree_append (a b : String) (ha : commaFree a = true)
    (hb : commaFree b = true) : commaFree (a ++ b) = true := by
  unfold commaFree at *
  rw [show (a ++ b).data = a.data ++ b.data from rfl, List.all_append]
  simp [ha, hb]

theorem commaFree_normHost (h : String) (hcf : commaFree h = true) :
    commaFree (normHost h) = true := by
  unfold normHost
  split
  · exact hcf
  · exact commaFree_append h "/" hcf (by decide)

theorem append_ne_empty_left (a b : String) (ha : a ≠ "") : a ++ b ≠ "" := by
  intro hab
  apply ha
  have h2 : a.data ++ b.data = [] := congrArg String.data hab
  rcases List.append_eq_nil.mp h2 with ⟨h3, _⟩
  cases a
  simp_all

theorem append_ne_empty_right (a b : String) (hb : b ≠ "") : a ++ b ≠ "" := by
  intro hab
  apply hb
  have h2 : a.data ++ b.data = [] := congrArg String.data hab
  rcases List.append_eq_nil.mp h2 with ⟨_, h3⟩
  cases b
  simp_all

/-- When the endpoints string is non-empty and comma-free, register_extractor
attempts at most one POST and only appends to registered_clowder. -/
theorem register_extractor_single (registered : List String) (endpoints : String)
    (hne : endpoints ≠ "") (hcf : commaFree endpoints = true) :
    (register_extractor registered endpoints).1.length ≤ 1 ∧
    ∃ tail, (register_extractor registered endpoints).2 = registered ++ tail := by
  unfold register_extractor
  rw [if_neg hne]
  rw [pySplitChar_no_sep ',' endpoints.data (commaFree_spec endpoints hcf)]
  constructor
  · have := regFoldStep_posts_len [endpoints.data] ([], registered)
    simpa using this
  · exact regFoldStep_mono [endpoints.data] ([], registered)

/-- If the host's registration url is already known, the registration block
is a no-op. -/
theorem regBlock_mem (registered : List String) (host secret_key : String)
    (hmem : registered.contains (host ++ "api/extractors") = true) :
    regBlock registered host secret_key = ([], registered) := by
  unfold regBlock
  dsimp only
  rw [if_pos hmem]

/-- If the url is new, the registration block attempts at most one POST and
records the url. -/
theorem regBlock_new (registered : List String) (host secret_key : String)
    (hmem : registered.contains (host ++ "api/extractors") = false)
    (hcf : commaFree (host ++ "api/extractors" ++ "?key=" ++ secret_key) = true) :
    (regBlock registered host secret_key).1.length ≤ 1 ∧
    (regBlock registered host secret_key).2.contains
      (host ++ "api/extractors") = true := by
  unfold regBlock
  dsimp only
  rw [if_neg (by simp_all)]
  have hne : host ++ "api/extractors" ++ "?key=" ++ secret_key ≠ "" :=
    append_ne_empty_left _ _
      (append_ne_empty_left _ _ (append_ne_empty_right _ _ (by decide)))
  obtain ⟨hlen, tail, htail⟩ := register_extractor_single
    (registered ++ [host ++ "api/extractors"]) _ hne hcf
  refine ⟨hlen, ?_⟩
  rw [htail]
  simp

/-- _process_message only ever appends to Connector.registered_clowder:
membership is monotonic within the process. -/
theorem pm_registered_mono (cfg : Cfg) (o : Oracle) (registered : List String)
    (body : MessageBody) :
    ∃ tail, (processMessageM cfg o registered body).registered =
      registered ++ tail := by
  unfold processMessageM
  by_cases hh : body.host.getD "" = ""
  · exact ⟨[], by simp [hh]⟩
  · rw [if_neg hh]
    rcases hb : (buildResource cfg o body).2 with r | _ | e
    · have hreg : ∃ tail,
          (regBlock registered (normHost (body.host.getD ""))
            (body.secretKey.getD "")).2 = registered ++ tail := by
        unfold regBlock
        dsimp only
        by_cases hc : registered.contains
            (normHost (body.host.getD "") ++ "api/extractors") = true
        · rw [if_pos hc]
          exact ⟨[], by simp⟩
        · rw [if_neg hc]
          unfold register_extractor
          split
          · exact ⟨[normHost (body.host.getD "") ++ "api/extractors"], rfl⟩
          · obtain ⟨t, ht⟩ := regFoldStep_mono
              (pySplitChar ',' (normHost (body.host.getD "") ++ "api/extractors"
                ++ "?key=" ++ body.secretKey.getD "").data)
              ([], registered ++ [normHost (body.host.getD "") ++ "api/extractors"])
            exact ⟨(normHost (body.host.getD "") ++ "api/extractors") :: t,
              by rw [ht]; simp⟩
      obtain ⟨tail, htail⟩ := hreg
      rcases hz : (tryBody cfg o r).2 with _ | e <;>
        exact ⟨tail, by simp [hb, hz, htail]⟩
    · exact ⟨[], by simp [hb]⟩
    · exact ⟨[], by simp [hb]⟩

/-- If the host's registration url is already recorded, a message for that
host attempts no POST and keeps the url recorded. -/
theorem pm_posts_skip (cfg : Cfg) (o : Oracle) (registered : List String)
    (body : MessageBody) (h : String)
    (hhost : body.host = some h) (hne : h ≠ "")
    (hmem : registered.contains (normHost h ++ "api/extractors") = true) :
    (processMessageM cfg o registered body).posts = [] ∧
    (processMessageM cfg o registered body).registered.contains
      (normHost h ++ "api/extractors") = true := by
  unfold processMessageM
  rw [hhost]
  simp only [Option.getD_some]
  rw [if_neg hne]
  have hmem2 : normHost h ++ "api/extractors" ∈ registered := by
    simpa using hmem
  rcases hb : (buildResource cfg o body).2 with r | _ | e
  · have hrb := regBlock_mem registered (normHost h) (body.secretKey.getD "") hmem
    rcases hz : (tryBody cfg o r).2 with _ | e <;> simp [hb, hz, hrb, hmem2]
  · simp [hb, hmem2]
  · simp [hb, hmem2]

/-- If the host's registration url is new, a message for that host either
does not reach registration (leaving everything unchanged) or attempts at
most one POST and records the url. -/
theorem pm_posts_new (cfg : Cfg) (o : Oracle) (registered : List String)
    (body : MessageBody) (h : String)
    (hhost : body.host = some h) (hne : h ≠ "")
    (hcf : commaFree h = true)
    (hkey : commaFree (body.secretKey.getD "") = true)
    (hmem : registered.contains (normHost h ++ "api/extractors") = false) :
    ((processMessageM cfg o registered body).posts = [] ∧
      (processMessageM cfg o registered body).registered = registered) ∨
    ((processMessageM cfg o registered body).posts.length ≤ 1 ∧
      (processMessageM cfg o registered body).registered.contains
        (normHost h ++ "api/extractors") = true) := by
  unfold processMessageM
  rw [hhost]
  simp only [Option.getD_some]
  rw [if_neg hne]
  rcases hb : (buildResource cfg o body).2 with r | _ | e
  · right
    have hcfall : commaFree (normHost h ++ "api/extractors" ++ "?key=" ++
        body.secretKey.getD "") = true :=
      commaFree_append _ _
        (commaFree_append _ _
          (commaFree_append _ _ (commaFree_normHost h hcf) (by decide))
          (by decide))
        hkey
    obtain ⟨hlen, hcont⟩ := regBlock_new registered (normHost h)
      (body.secretKey.getD "") hmem hcfall
    have hcont2 : normHost h ++ "api/extractors" ∈
        (regBlock registered (normHost h) (body.secretKey.getD "")).2 := by
      simpa using hcont
    rcases hz : (tryBody cfg o r).2 with _ | e <;> simp [hb, hz, hlen, hcont2]
  · left
    simp [hb]
  · left
    simp [hb]

/-- Invariant fold for registration idempotence: once the url is recorded no
further POSTs to it happen, and before that at most one happens. -/
theorem runMessages_regcount (cfg : Cfg) (h : String) (hne : h ≠ "")
    (hcf : commaFree h = true) :
    ∀ (msgs : List (MessageBody × Oracle)) (registered : List String),
      (∀ m ∈ msgs, m.1.host = some h ∧ commaFree (m.1.secretKey.getD "") = true) →
      ((registered.contains (normHost h ++ "api/extractors") = true →
        (runMessages cfg registered msgs).1.countP
          (fun u => pyStartswith u (normHost h ++ "api/extractors")) = 0) ∧
       (runMessages cfg registered msgs).1.countP
          (fun u => pyStartswith u (normHost h ++ "api/extractors")) ≤ 1) := by
  intro msgs
  induction msgs with
  | nil =>
    intro registered _
    exact ⟨fun _ => rfl, by simp [runMessages]⟩
  | cons m rest ih =>
    intro registered hall
    have hm := hall m (List.mem_cons_self m rest)
    have hrest : ∀ x ∈ rest, x.1.host = some h ∧
        commaFree (x.1.secretKey.getD "") = true :=
      fun x hx => hall x (List.mem_cons_of_mem m hx)
    have hrun : (runMessages cfg registered (m :: rest)).1 =
        (processMessageM cfg m.2 registered m.1).posts ++
        (runMessages cfg (processMessageM cfg m.2 registered m.1).registered rest).1 := by
      simp [runMessages]
    by_cases hc : registered.contains (normHost h ++ "api/extractors") = true
    · obtain ⟨hp0, hcont⟩ := pm_posts_skip cfg m.2 registered m.1 h hm.1 hne hc
      have hrec := (ih (processMessageM cfg m.2 registered m.1).registered hrest).1 hcont
      constructor
      · intro _
        rw [hrun, List.countP_append, hp0, hrec]
        rfl
      · rw [hrun, List.countP_append, hp0, hrec]
        simp
    · have hmem : registered.contains (normHost h ++ "api/extractors") = false := by
        simp_all
      rcases pm_posts_new cfg m.2 registered m.1 h hm.1 hne hcf hm.2 hmem with
        ⟨hp0, hsame⟩ | ⟨hlen, hcont⟩
      · have hrec := ih registered hrest
        constructor
        · intro hctr
          rw [hctr] at hmem
          cases hmem
        · rw [hrun, hp0, hsame, List.countP_append]
          have := hrec.2
          simp only [hp0, List.countP_nil]
          omega
      · have hrec := (ih (processMessageM cfg m.2 registered m.1).registered hrest).1 hcont
        constructor
        · intro hctr
          rw [hctr] at hmem
          cases hmem
        · rw [hrun, List.countP_append, hrec]
          have hcp := List.countP_le_length
            (p := fun u => pyStartswith u (normHost h ++ "api/extractors"))
            (l := (processMessageM cfg m.2 registered m.1).posts)
          omega

/-- Whether _process_message re-raises is independent of the
registered_clowder state (registration only affects POSTs). -/
theorem processMessageM_raised_indep (cfg : Cfg) (o : Oracle)
    (body : MessageBody) (reg1 reg2 : List String) :
    (processMessageM cfg o reg1 body).raised =
      (processMessageM cfg o reg2 body).raised := by
  unfold processMessageM
  by_cases h : body.host.getD "" = ""
  · simp [h]
  · rw [if_neg h, if_neg h]
    rcases hb : (buildResource cfg o body).2 with r | _ | e <;> simp only [hb]
    rcases hz : (tryBody cfg o r).2 with _ | e <;> simp [hz]

/-! ### Claim theorems -/

/-- C1: for every message that enters processing (non-empty host and a
resource built without an escaping exception), _process_message emits exactly
one terminal outcome (ok, error or resubmit) — including the
dataset-preprocess-failure path, where _build_resource emits the error
terminal itself and the caller does not double-emit, and the fatal-interrupt
paths, which emit resubmit then re-raise. -/
theorem C1_single_terminal (cfg : Cfg) (o : Oracle) (registered : List String)
    (body : MessageBody)
    (hhost : body.host.getD "" ≠ "")
    (hbuild : (buildResource cfg o body).2.isRaised = false) :
    (processMessageM cfg o registered body).terminals.length = 1 := by
  unfold processMessageM
  rw [if_neg hhost]
  rcases hb : (buildResource cfg o body).2 with r | _ | e
  · simp only [hb]
    rcases ht : (tryBody cfg o r).2 with _ | e
    · simp [ht]
    · simp [ht, handlerFor_len]
  · simp [hb]
  · rw [hb] at hbuild
    simp [BuildOut.isRaised] at hbuild

theorem C1_witness :
    fileBody.host.getD "" ≠ "" ∧
    (buildResource noCheckCfg happyOracle fileBody).2.isRaised = false ∧
    (processMessageM noCheckCfg happyOracle [] fileBody).terminals.length = 1 :=
  ⟨by decide, by decide,
   C1_single_terminal noCheckCfg happyOracle [] fileBody (by decide) (by decide)⟩

/-- C10: across any sequence of processed messages naming the same non-empty
(comma-free) host, at most one registration POST targeting
<host>api/extractors is attempted in the process (starting from the empty
process-wide registered_clowder), regardless of build failures, check
results, processing errors or failed POSTs (POST failures are swallowed and
the url was already appended); and registered_clowder membership is
monotonic: every message only appends to it. -/
theorem C10_registration_once (cfg : Cfg) (h : String)
    (msgs : List (MessageBody × Oracle))
    (hne : h ≠ "") (hcf : commaFree h = true)
    (hmsgs : ∀ m ∈ msgs, m.1.host = some h ∧
      commaFree (m.1.secretKey.getD "") = true) :
    (runMessages cfg [] msgs).1.countP
      (fun u => pyStartswith u (normHost h ++ "api/extractors")) ≤ 1 ∧
    (∀ (registered : List String) (o : Oracle) (body : MessageBody),
      ∃ tail, (processMessageM cfg o registered body).registered =
        registered ++ tail) :=
  ⟨(runMessages_regcount cfg h hne hcf msgs [] hmsgs).2,
   fun registered o body => pm_registered_mono cfg o registered body⟩

theorem C10_witness :
    ("http://h/" : String) ≠ "" ∧
    commaFree "http://h/" = true ∧
    (∀ m ∈ [(fileBody, happyOracle), (fileBody, failOracle)],
      m.1.host = some "http://h/" ∧ commaFree (m.1.secretKey.getD "") = true) ∧
    ((runMessages noCheckCfg [] [(fileBody, happyOracle), (fileBody, failOracle)]).1.countP
      (fun u => pyStartswith u (normHost "http://h/" ++ "api/extractors")) ≤ 1 ∧
     (∀ (registered : List String) (o : Oracle) (body : MessageBody),
       ∃ tail, (processMessageM noCheckCfg o registered body).registered =
         registered ++ tail)) :=
  ⟨by decide, by decide, by decide,
   C10_registration_once noCheckCfg "http://h/"
     [(fileBody, happyOracle), (fileBody, failOracle)]
     (by decide) (by decide) (by decide)⟩

/-- The finally clause of HPCConnector.listen clears self.logfile on every
path, including load failures and re-raised processing errors. -/
theorem hpcListen_logfile (cfg : Cfg) (its : List HpcItem) :
    ∀ reg2, (hpcListen cfg reg2 its).logfile = none := by
  induction its with
  | nil => intro reg2; rfl
  | cons item rest ih =>
    intro reg2
    unfold hpcListen
    cases item with
    | loadFail e => rfl
    | loadOk body o =>
      rcases hl : body.logfile with _ | l
      · simp [hl]
      · simp only [hl]
        rcases hz : (processMessageM cfg o reg2 body).raised with _ | e
        · simp [hz, ih]
        · simp [hz]


/-- C9 (counterexample): the claim states an error while loading one pickle
file does not prevent the batch from processing subsequent files.  The
per-file try has a finally but NO except clause (lines 810-817), so a load
failure propagates out of listen: with a failing first file the second is
never processed, although alone it would be. -/
theorem C9_counterexample :
    (hpcListen noCheckCfg [] c9Items).traces.length = 0 ∧
    c9Items.length = 2 ∧
    (hpcListen noCheckCfg [] c9Items).raised = some .otherException ∧
    (hpcListen noCheckCfg [] [HpcItem.loadOk hpcBody happyOracle]).traces.length = 1 := by
  decide

/-- C9 (amended): the batch advances over every file provided each file
loads, carries a logfile, and its processing does not re-raise (_process_message
absorbs ordinary errors through its handler taxonomy, so those do advance the
batch); any load failure or re-raised error stops the whole batch after the
finally clears the logfile reference — which is cleared on every path. -/
theorem C9_batch_advance (cfg : Cfg) (registered : List String)
    (items : List HpcItem) (h : items.all (itemClean cfg) = true) :
    (hpcListen cfg registered items).traces.length = items.length ∧
    (hpcListen cfg registered items).raised = none ∧
    (∀ (its : List HpcItem) (reg2 : List String),
      (hpcListen cfg reg2 its).logfile = none) := by
  have main : ∀ (its : List HpcItem) (reg : List String),
      its.all (itemClean cfg) = true →
      (hpcListen cfg reg its).traces.length = its.length ∧
      (hpcListen cfg reg its).raised = none := by
    intro its
    induction its with
    | nil => intro reg _; exact ⟨rfl, rfl⟩
    | cons item rest ih =>
      intro reg hall
      simp only [List.all_cons, Bool.and_eq_true] at hall
      cases item with
      | loadFail e => simp [itemClean] at hall
      | loadOk body o =>
        rw [itemClean, Bool.and_eq_true] at hall
        obtain ⟨⟨hlog, hraise⟩, hrest⟩ := hall
        rcases hl : body.logfile with _ | l
        · rw [hl] at hlog
          simp at hlog
        · have hz : (processMessageM cfg o reg body).raised = none := by
            rw [processMessageM_raised_indep cfg o body reg []]
            simpa using hraise
          unfold hpcListen
          simp only [hl, hz]
          obtain ⟨ih1, ih2⟩ := ih (processMessageM cfg o reg body).registered hrest
          simp [ih1, ih2]
  exact ⟨(main items registered h).1, (main items registered h).2,
    fun its reg2 => hpcListen_logfile cfg its reg2⟩

theorem C9_witness :
    ([HpcItem.loadOk hpcBody happyOracle].all (itemClean noCheckCfg)) = true ∧
    ((hpcListen noCheckCfg [] [HpcItem.loadOk hpcBody happyOracle]).traces.length =
       [HpcItem.loadOk hpcBody happyOracle].length ∧
     (hpcListen noCheckCfg [] [HpcItem.loadOk hpcBody happyOracle]).raised = none ∧
     (∀ (its : List HpcItem) (reg2 : List String),
       (hpcListen noCheckCfg reg2 its).logfile = none)) :=
  ⟨by decide,
   C9_batch_advance noCheckCfg [] [HpcItem.loadOk hpcBody happyOracle] (by decide)⟩

/-- C2 (counterexample): the claim states every temp created during staging
is deleted on every exit path, including when staging itself fails partway.
With leakOracle the second sidecar metadata download raises after the first
sidecar temp file and temp dir were created; _prepare_dataset's local lists
are lost on the raise, the caller's tmp_files/tmp_dirs are still [], so the
finally removes nothing and the temps leak. -/
theorem C2_counterexample :
    "/tmp/mdfA" ∈ (processMessageM noCheckCfg leakOracle [] dsBody).btrace.tmpFilesCreated ∧
    (processMessageM noCheckCfg leakOracle [] dsBody).btrace.filesRemoved = [] ∧
    "/tmp/dirfA" ∈ (processMessageM noCheckCfg leakOracle [] dsBody).btrace.tmpDirsCreated ∧
    (processMessageM noCheckCfg leakOracle [] dsBody).btrace.dirsRemoved = [] := by
  decide

/-- C2 (amended): provided _prepare_dataset does not raise partway (it
succeeds whenever the message builds a resource), the set of temp files and
dirs created during staging equals the set removed — so every temp is deleted
whether process_message returns or raises, and only tracked temps (never
locally resolved paths) are ever deleted.  The file branch needs no proviso.
Without the proviso, temps created before a staging failure leak. -/
theorem C2_cleanup (cfg : Cfg) (o : Oracle) (registered : List String)
    (body : MessageBody)
    (hprep : prepOkForBody cfg o body = true) :
    (∀ p, p ∈ (processMessageM cfg o registered body).btrace.tmpFilesCreated ↔
      p ∈ (processMessageM cfg o registered body).btrace.filesRemoved) ∧
    (∀ d, d ∈ (processMessageM cfg o registered body).btrace.tmpDirsCreated ↔
      d ∈ (processMessageM cfg o registered body).btrace.dirsRemoved) := by
  by_cases hhost : body.host.getD "" = ""
  · simp [processMessageM, hhost]
  · unfold processMessageM
    rw [if_neg hhost]
    have hshape := buildResource_shape cfg o body
    rcases hb : (buildResource cfg o body).2 with r | _ | e
    · unfold prepOkForBody at hprep
      rw [hb] at hprep
      obtain ⟨hbt, _⟩ := buildResource_ok_facts cfg o body r hb
      obtain ⟨w1, w2⟩ := tryBody_clean cfg o r hprep
      rcases hz : (tryBody cfg o r).2 with _ | e <;>
        refine ⟨fun p => ?_, fun d => ?_⟩ <;>
          simp [hb, hz, hbt, w1, w2]
    · refine ⟨fun p => ?_, fun d => ?_⟩ <;>
        simp [hb, hshape.1, hshape.2.1, hshape.2.2.1, hshape.2.2.2.1]
    · refine ⟨fun p => ?_, fun d => ?_⟩ <;>
        simp [hb, hshape.1, hshape.2.1, hshape.2.2.1, hshape.2.2.2.1]

theorem C2_witness :
    prepOkForBody noCheckCfg dsHappyOracle dsBody = true ∧
    ((∀ p, p ∈ (processMessageM noCheckCfg dsHappyOracle [] dsBody).btrace.tmpFilesCreated ↔
        p ∈ (processMessageM noCheckCfg dsHappyOracle [] dsBody).btrace.filesRemoved) ∧
     (∀ d, d ∈ (processMessageM noCheckCfg dsHappyOracle [] dsBody).btrace.tmpDirsCreated ↔
        d ∈ (processMessageM noCheckCfg dsHappyOracle [] dsBody).btrace.dirsRemoved)) :=
  ⟨by decide, C2_cleanup noCheckCfg dsHappyOracle [] dsBody (by decide)⟩

/-- C3: when a StandardError escapes the worker body, the terminal outcome is
resubmit with retry_count + 1 if the incoming retry_count (default 0) is
strictly below 10, and error otherwise. -/
theorem C3_retry_policy (cfg : Cfg) (o : Oracle) (registered : List String)
    (body : MessageBody) (r : Resource)
    (hhost : body.host.getD "" ≠ "")
    (hbuild : (buildResource cfg o body).2 = BuildOut.ok r)
    (htry : (tryBody cfg o r).2 = some .standardError) :
    (processMessageM cfg o registered body).terminals =
      (if body.retry_count.getD 0 < 10 then
        [Terminal.resubmit (body.retry_count.getD 0 + 1)]
      else [Terminal.error]) := by
  unfold processMessageM
  rw [if_neg hhost]
  simp only [hbuild, htry, handlerFor]
  split <;> simp

theorem C3_witness :
    fileBody.host.getD "" ≠ "" ∧
    (buildResource noCheckCfg failOracle fileBody).2 = BuildOut.ok fileResource ∧
    (tryBody noCheckCfg failOracle fileResource).2 = some .standardError ∧
    (processMessageM noCheckCfg failOracle [] fileBody).terminals =
      (if fileBody.retry_count.getD 0 < 10 then
        [Terminal.resubmit (fileBody.retry_count.getD 0 + 1)]
      else [Terminal.error]) :=
  ⟨by decide, by decide, by decide,
   C3_retry_policy noCheckCfg failOracle [] fileBody fileResource
     (by decide) (by decide) (by decide)⟩

/-- C5: a message whose host field is empty or absent is dropped with no side
effect at all: no status, no registration POST, no temp activity, no terminal
outcome, no exception, and registered_clowder unchanged. -/
theorem C5_empty_host_drop (cfg : Cfg) (o : Oracle) (registered : List String)
    (body : MessageBody)
    (hhost : body.host = none ∨ body.host = some "") :
    processMessageM cfg o registered body =
      { btrace := {}, terminals := [], posts := [], raised := none,
        registered := registered } := by
  rcases hhost with h | h <;> simp [processMessageM, h]

/-- C4 (counterexample): the claim states that a mount-remapped path equals
T + filepath[len(S):].  The source uses Python str.replace, which replaces
EVERY occurrence of S: for MountMap {"/a": "/b"} and filepath "/a/a" (not
locally present, starting with source prefix "/a") the result is "/b/b", not
"/b" + "/a" = "/b/a". -/
theorem C4_counterexample :
    pyStartswith "/a/a" "/a" = true ∧
    ([] : List String).contains "/a/a" = false ∧
    check_for_local_file [("/a", "/b")] [] "" "" { filepath := some "/a/a" } =
      some "/b/b" ∧
    ("/b/b" : String) ≠ "/b" ++ "/a" := by
  decide

/-- C4 (amended): when the filepath is S ++ rest, is not locally present, the
first matching MountMap entry is (S, T), and S does not reoccur inside rest,
the resolved path is T ++ rest.  (In general the source returns
filepath.replace(S, T), i.e. replace-all.) -/
theorem C4_mount_remap (mounted_paths : List (String × String))
    (localFiles : List String) (host secret_key : String) (fm : FileDescriptor)
    (S T rest : String)
    (hfp : fm.filepath = some (S ++ rest))
    (hS : S ≠ "")
    (hnotlocal : localFiles.contains (S ++ rest) = false)
    (hfind : mounted_paths.find? (fun st => pyStartswith (S ++ rest) st.1) =
      some (S, T))
    (hocc : listOccurs S.data rest.data = false) :
    check_for_local_file mounted_paths localFiles host secret_key fm =
      some (T ++ rest) := by
  unfold check_for_local_file
  simp only [hfp]
  rw [if_neg (by simpa using hnotlocal)]
  simp only [hfind]
  rw [pyReplace_head S T rest hS hocc]

theorem C4_witness :
    ({ filepath := some ("/data/" ++ "f.txt") } : FileDescriptor).filepath =
      some ("/data/" ++ "f.txt") ∧
    ("/data/" : String) ≠ "" ∧
    ([] : List String).contains ("/data/" ++ "f.txt") = false ∧
    [("/data/", "/local/")].find?
      (fun st => pyStartswith ("/data/" ++ "f.txt") st.1) =
      some ("/data/", "/local/") ∧
    listOccurs "/data/".data "f.txt".data = false ∧
    check_for_local_file [("/data/", "/local/")] [] "" ""
      { filepath := some ("/data/" ++ "f.txt") } = some ("/local/" ++ "f.txt") :=
  ⟨by decide, by decide, by decide, by decide, by decide,
   C4_mount_remap [("/data/", "/local/")] [] "" ""
     { filepath := some ("/data/" ++ "f.txt") } "/data/" "/local/" "f.txt"
     (by decide) (by decide) (by decide) (by decide) (by decide)⟩

theorem C5_witness :
    (emptyHostBody.host = none ∨ emptyHostBody.host = some "") ∧
    processMessageM defaultCfg happyOracle ["x"] emptyHostBody =
      { btrace := {}, terminals := [], posts := [], raised := none,
        registered := ["x"] } :=
  ⟨Or.inl rfl,
   C5_empty_host_drop defaultCfg happyOracle ["x"] emptyHostBody (Or.inl rfl)⟩

/-- C6 (counterexample): the claim states that under a bypass check result
process_message is invoked with local_paths equal to the empty sequence for
every message kind.  In the file branch the source never assigns
resource['local_paths'] (the assignment at line 353 is inside the
non-bypass arm), so the callback sees a resource with NO local_paths key,
not an empty sequence. -/
theorem C6_counterexample :
    (processMessageM defaultCfg bypassOracle [] fileBody).btrace.tmpFilesCreated = [] ∧
    (processMessageM defaultCfg bypassOracle [] fileBody).btrace.processCalls = [none] ∧
    [(none : Option (List String))] ≠ [some ([] : List String)] := by
  decide

/-- C6 (amended): under a bypass check result, staging is skipped entirely
(no download, no temp file or directory creation) and process_message is
still invoked exactly once — with local_paths set to [] for dataset and
metadata resources, but left unset (key absent) for file resources. -/
theorem C6_bypass_no_staging (cfg : Cfg) (o : Oracle) (registered : List String)
    (body : MessageBody) (r : Resource)
    (hhost : body.host.getD "" ≠ "")
    (hbuild : (buildResource cfg o body).2 = BuildOut.ok r)
    (hcheck : cfg.has_check_message = true)
    (hres : o.check_result = .ok .bypass)
    (hproc : cfg.has_process_message = true) :
    (processMessageM cfg o registered body).btrace.tmpFilesCreated = [] ∧
    (processMessageM cfg o registered body).btrace.tmpDirsCreated = [] ∧
    (processMessageM cfg o registered body).btrace.processCalls =
      [if r.rtype = "file" then none else some []] := by
  obtain ⟨hbt, hlp⟩ := buildResource_ok_facts cfg o body r hbuild
  have htb := tryBody_bypass cfg o r hcheck hres hproc
  unfold processMessageM
  rw [if_neg hhost]
  simp only [hbuild]
  rcases hz : (tryBody cfg o r).2 with _ | e <;>
    simp [hz, htb, hbt, hlp]

theorem C6_witness :
    dsBody.host.getD "" ≠ "" ∧
    (buildResource defaultCfg bypassLeakOracle dsBody).2 = BuildOut.ok dsResource ∧
    defaultCfg.has_check_message = true ∧
    bypassLeakOracle.check_result = Except.ok CheckMessage.bypass ∧
    defaultCfg.has_process_message = true ∧
    ((processMessageM defaultCfg bypassLeakOracle [] dsBody).btrace.tmpFilesCreated = [] ∧
     (processMessageM defaultCfg bypassLeakOracle [] dsBody).btrace.tmpDirsCreated = [] ∧
     (processMessageM defaultCfg bypassLeakOracle [] dsBody).btrace.processCalls =
       [if dsResource.rtype = "file" then none else some []]) :=
  ⟨by decide, by decide, rfl, rfl, rfl,
   C6_bypass_no_staging defaultCfg bypassLeakOracle [] dsBody dsResource
     (by decide) (by decide) rfl rfl rfl⟩

/-- C7 (counterexample): the claim states that whenever the original body
lacked routing_key, the republished body fills it from the delivery metadata.
But the source additionally requires method.routing_key to differ from the
work queue name: redelivered from the work queue itself (the common resubmit
case), the routing_key stays absent. -/
theorem C7_counterexample :
    c7OrigBody.routing_key = none ∧
    ("myx" : String) ≠ "" ∧
    (resubmitRepublish "myx" c7OrigBody "clowder" "myx" 4).2.routing_key = none := by
  decide

/-- C7 (amended): the republished body is the original with retry_count set
to the passed value and all other fields unchanged, except that exchange is
filled from method.exchange when absent and method.exchange is non-empty, and
routing_key is filled from method.routing_key when absent, non-empty AND
different from the work queue name; the publish target is the work queue. -/
theorem C7_resubmit_republish (extractor_name : String) (origBody : PBody)
    (methodExchange methodRoutingKey : String) (retry_count : Int) :
    resubmitRepublish extractor_name origBody methodExchange methodRoutingKey
      retry_count =
      (extractor_name,
       { origBody with
         retry_count := some retry_count,
         exchange :=
           if origBody.exchange = none ∧ methodExchange ≠ "" then
             some methodExchange
           else origBody.exchange,
         routing_key :=
           if origBody.routing_key = none ∧ methodRoutingKey ≠ "" ∧
               methodRoutingKey ≠ extractor_name then
             some methodRoutingKey
           else origBody.routing_key }) := by
  unfold resubmitRepublish
  by_cases h1 : origBody.exchange = none ∧ methodExchange ≠ "" <;>
    by_cases h2 : origBody.routing_key = none ∧ methodRoutingKey ≠ "" ∧
      methodRoutingKey ≠ extractor_name <;>
    simp [h1, h2]

/-- lastOf of a non-empty list is some element. -/
theorem lastOf_cons (b : String) (l : List String) : ∃ k, lastOf (b :: l) = some k := by
  induction l generalizing b with
  | nil => exact ⟨b, rfl⟩
  | cons c cs ih => exact ih c

/-- C8 helper: a fold that overwrites its accumulator at every element is
decided by the last element. -/
theorem foldl_overwrite_last (keys : List String) (acc : String) :
    keys.foldl (fun _ key => if key = "dataset" then "dataset" else "file") acc =
      (match lastOf keys with
       | none => acc
       | some k => if k = "dataset" then "dataset" else "file") := by
  induction keys generalizing acc with
  | nil => rfl
  | cons k restk ih =>
    cases restk with
    | nil => rfl
    | cons k2 r2 =>
      rw [List.foldl_cons, ih]
      obtain ⟨k3, hk3⟩ := lastOf_cons k2 r2
      rw [show lastOf (k :: k2 :: r2) = lastOf (k2 :: r2) from rfl, hk3]

/-- C8 (counterexample): the claim says that when rules 1-4 fail and the
routing key ends with the extractor name, the resource kind is dataset
whenever ExtractorInfo.process names dataset, regardless of key order.  With
process iteration order [dataset, file] the loop's last iteration overwrites
the type back to file. -/
theorem C8_counterexample :
    strOccurs ".dataset." "error.myx" = false ∧
    strOccurs ".file." "error.myx" = false ∧
    strOccurs "metadata.added" "error.myx" = false ∧
    ("error.myx" : String) ≠ "extractors." ++ "myx" ∧
    pyEndsWith "error.myx" "myx" = true ∧
    (["dataset", "file"] : List String).contains "dataset" = true ∧
    resourceTypeOf "myx" ["dataset", "file"] "error.myx" "" "" = "file" := by
  decide

/-- C8 (amended): when rules 1-4 fail and the routing key ends with the
extractor name, the classification is decided by the LAST key of the process
descriptor's iteration order: dataset exactly when that last key is
"dataset", file otherwise (also when the descriptor is empty). -/
theorem C8_redelivery_classification (extractor_name : String)
    (process_keys : List String) (routing_key fileid datasetid : String)
    (h1 : strOccurs ".dataset." routing_key = false)
    (h2 : strOccurs ".file." routing_key = false)
    (h3 : strOccurs "metadata.added" routing_key = false)
    (h4 : routing_key ≠ "extractors." ++ extractor_name)
    (h5 : pyEndsWith routing_key extractor_name = true) :
    resourceTypeOf extractor_name process_keys routing_key fileid datasetid =
      (match lastOf process_keys with
       | none => "file"
       | some k => if k = "dataset" then "dataset" else "file") := by
  unfold resourceTypeOf
  simp only [h1, h2, h3, h5, if_neg h4, Bool.false_eq_true, if_false, if_true]
  exact foldl_overwrite_last process_keys "file"

theorem C8_witness :
    strOccurs ".dataset." "error.myx" = false ∧
    pyEndsWith "error.myx" "myx" = true ∧
    resourceTypeOf "myx" ["file", "dataset"] "error.myx" "" "" =
      (match lastOf ["file", "dataset"] with
       | none => "file"
       | some k => if k = "dataset" then "dataset" else "file") :=
  ⟨by decide, by decide,
   C8_redelivery_classification "myx" ["file", "dataset"] "error.myx" "" ""
     (by decide) (by decide) (by decide) (by decide) (by decide)⟩

end PyClowder
